import Mathlib

/-!
Shallow embedding of `src/ucp/public_api.py` (the ucx-py public API module).

The module keeps one process-wide mutable variable `_ctx` (initially `None`)
holding at most one `core.ApplicationContext`.  The public functions `init`,
`create_listener`, `create_endpoint`, `progress`, `get_ucp_worker`,
`get_config` and `reset` read and update that variable.  We model the mutable
module state as an explicit `GlobalState` record threaded through every
operation.  Python dicts over string keys are modelled as association lists
with the usual unique-key reading; the in-place mutation `init` performs on
the caller's `options` dict is modelled by returning the caller's mapping as
it stands after the call.

The Cython engine module `ucp/_libs/core` is part of the repository but not
present under `src/`; where its behaviour decides a claim, the corresponding
definition is modelled from the spec and marked `Modelled from the spec:` in
its doc comment.
-/

namespace Ucp

/-- A UCX options/configuration mapping: a Python `dict` of string keys and
string values, as an association list with unique keys. -/
abbrev Config := List (String × String)

/-- Errors raised by the public API.  `public_api.py` raises exactly one
error itself: the `RuntimeError` in `init` when `_ctx is not None`
("UCX is already initiated"), which the spec names `AlreadyInitialized`. -/
inductive UcxError where
  | AlreadyInitialized
  deriving DecidableEq, Repr

/-- First value bound to a key in an association list, mirroring a Python
`dict` lookup / `k in d` membership test. -/
def lookupKey {α β : Type} [DecidableEq α] : List (α × β) → α → Option β
  | [], _ => none
  | (k, v) :: rest, key => if k = key then some v else lookupKey rest key

/-- Status of a Pending Operation of the Async Connection Driver. -/
inductive OpStatus where
  | pending
  | completed
  | failed
  | cancelled
  deriving DecidableEq, Repr

/-- One in-flight outbound connect request registered with the Async
Connection Driver: target address, owning context, and completion status. -/
structure PendingOp where
  opId : Nat
  owner : Nat
  addr : String
  port : Nat
  status : OpStatus
  deriving DecidableEq, Repr

/-- A listener record: the id of the context that created it and its port. -/
structure Listener where
  owner : Nat
  port : Nat
  deriving DecidableEq, Repr

/-- The `core.ApplicationContext` object: identified by its creation order
(`id`, so that distinct instances are distinguishable) and carrying the
options mapping it was constructed with. -/
structure ApplicationContext where
  id : Nat
  config : Config
  deriving DecidableEq, Repr

/-- The process-wide mutable state of the `ucp` module: the module-level
`_ctx` variable (at most one live context), a fresh-id counter for new
contexts, a fresh-id counter for pending operations, the Pending Operations
registered with the Async Connection Driver, and the listeners created so
far. -/
structure GlobalState where
  ctx : Option ApplicationContext
  nextId : Nat
  nextOpId : Nat
  ops : List PendingOp
  listeners : List Listener
  deriving DecidableEq, Repr

/-- The state at module import: `_ctx = None`, nothing created yet. -/
def initialState : GlobalState :=
  { ctx := none, nextId := 0, nextOpId := 0, ops := [], listeners := [] }

/-- The accessor `_get_ctx` of `public_api.py`: if `_ctx is None` it assigns
`_ctx = core.ApplicationContext()` (default, empty options) and returns the
context; otherwise it returns the existing context. -/
def get_ctx (s : GlobalState) : ApplicationContext × GlobalState :=
  match s.ctx with
  | some c => (c, s)
  | none =>
    let c : ApplicationContext := { id := s.nextId, config := [] }
    (c, { s with ctx := some c, nextId := s.nextId + 1 })

/-- The loop in `init`: `for k in os.environ.keys(): if k in options: del
options[k]` — after the loop, `options` holds exactly its entries whose key
does not occur in the environment. -/
def envRemove (options env : Config) : Config :=
  options.filter (fun p => (lookupKey env p.1).isNone)

/-- Everything `init` leaves behind: its result (normal return or raised
error), the caller's `options` dict as it stands after the call (`init`
mutates it in place), and the new module state. -/
structure InitResult where
  result : Except UcxError Unit
  options : Config
  state : GlobalState
  deriving Repr

/-- The function `init(options, env_takes_precedence)` of `public_api.py`:
raises when `_ctx is not None`; otherwise, when `env_takes_precedence`, it
deletes from `options` (in place) every key present in the environment; then
it assigns `_ctx = core.ApplicationContext(options)`. -/
def init (options env : Config) (env_takes_precedence : Bool) (s : GlobalState) : InitResult :=
  match s.ctx with
  | some _ => { result := .error .AlreadyInitialized, options := options, state := s }
  | none =>
    let opts := if env_takes_precedence then envRemove options env else options
    { result := .ok ()
      options := opts
      state := { s with ctx := some { id := s.nextId, config := opts },
                        nextId := s.nextId + 1 } }

/-- Modelled from the spec: teardown of the dropped `core.ApplicationContext`
(the module `ucp/_libs/core` is absent from `src/`).  "Context.reset() while
operations are pending must cancel all of them before releasing the Worker";
each Pending Operation of the dying context still pending is marked
cancelled. -/
def cancelOps (cid : Nat) (ops : List PendingOp) : List PendingOp :=
  ops.map fun op =>
    if op.owner = cid ∧ op.status = OpStatus.pending
    then { op with status := OpStatus.cancelled }
    else op

/-- The function `reset()` of `public_api.py`: sets the module-level `_ctx`
to `None`.  The dropped context's teardown (spec-modelled `cancelOps`)
cancels its Pending Operations before the Worker is released. -/
def reset (s : GlobalState) : GlobalState :=
  match s.ctx with
  | none => { s with ctx := none }
  | some c => { s with ctx := none, ops := cancelOps c.id s.ops }

/-- Modelled from the spec: one `progress()` step of the engine worker
(`ucp/_libs/core` is absent from `src/`), "completing zero or more Pending
Operations"; `engineDone` is the engine's report for this step, mapping a
ready operation id to success or failure.  Only pending operations owned by
the live context transition, each exactly once. -/
def resolveOps (cid : Nat) (engineDone : List (Nat × Bool)) (ops : List PendingOp) :
    List PendingOp :=
  ops.map fun op =>
    if op.owner = cid ∧ op.status = OpStatus.pending then
      match lookupKey engineDone op.opId with
      | some true => { op with status := OpStatus.completed }
      | some false => { op with status := OpStatus.failed }
      | none => op
    else op

/-- The function `progress()` of `public_api.py`: `return
_get_ctx().progress()` — note it reaches the worker through `_get_ctx`,
which creates a context when none is live.  Returns true iff a unit of work
was performed (spec: "Returns true iff at least one unit of work was
performed this call"). -/
def progress (engineDone : List (Nat × Bool)) (s : GlobalState) : Bool × GlobalState :=
  let r := get_ctx s
  let newOps := resolveOps r.1.id engineDone r.2.ops
  (decide (newOps ≠ r.2.ops), { r.2 with ops := newOps })

/-- The function `get_ucp_worker()` of `public_api.py`: `return
_get_ctx().get_ucp_worker()`.  Modelled from the spec for the handle value:
"exactly one Worker per Context", so the numeric handle is determined by the
owning context (modelled as its id). -/
def get_ucp_worker (s : GlobalState) : Nat × GlobalState :=
  let r := get_ctx s
  (r.1.id, r.2)

/-- The coroutine `create_endpoint(ip_address, port)` of `public_api.py`:
`return await _get_ctx().create_endpoint(ip_address, port)` — it reaches the
context through `_get_ctx`.  Modelled from the spec for the driver part:
registration "creates one Pending Operation and returns a not-yet-resolved
future" (here: the fresh operation id). -/
def create_endpoint (ip_address : String) (port : Nat) (s : GlobalState) :
    Nat × GlobalState :=
  let r := get_ctx s
  (r.2.nextOpId,
    { r.2 with
        ops := r.2.ops ++ [{ opId := r.2.nextOpId, owner := r.1.id,
                             addr := ip_address, port := port,
                             status := OpStatus.pending }]
        nextOpId := r.2.nextOpId + 1 })

/-- The function `create_listener(callback_func, port)` of `public_api.py`:
`return _get_ctx().create_listener(callback_func, port)`.  The listener
records its owning context and port. -/
def create_listener (port : Nat) (s : GlobalState) : Listener × GlobalState :=
  let r := get_ctx s
  let l : Listener := { owner := r.1.id, port := port }
  (l, { r.2 with listeners := r.2.listeners ++ [l] })

/-- The function `get_config()` of `public_api.py`: `if _ctx is None: return
core.get_config() else: return _get_ctx().get_config()`.  Modelled from the
spec for the two engine queries (`ucp/_libs/core` is absent from `src/`):
`engineDefault` is the engine's static default configuration and
`effective` the actual effective configuration of a context's worker; both
are parameters, since their values belong to the opaque engine. -/
def get_config (engineDefault : Config) (effective : ApplicationContext → Config)
    (s : GlobalState) : Config × GlobalState :=
  match s.ctx with
  | none => (engineDefault, s)
  | some _ =>
    let r := get_ctx s
    (effective r.1, r.2)

/-- One public API call, for reasoning about call sequences.  Oracle inputs
the engine would supply (the per-step completion report of `progress`) travel
with the call. -/
inductive ApiCall where
  | callInit (options env : Config) (etp : Bool)
  | callGetOrCreate
  | callCreateListener (port : Nat)
  | callCreateEndpoint (ip : String) (port : Nat)
  | callProgress (engineDone : List (Nat × Bool))
  | callGetConfig
  | callGetWorker
  | callReset

/-- State effect of one public API call. -/
def step : ApiCall → GlobalState → GlobalState
  | .callInit o e b, s => (init o e b s).state
  | .callGetOrCreate, s => (get_ctx s).2
  | .callCreateListener p, s => (create_listener p s).2
  | .callCreateEndpoint ip p, s => (create_endpoint ip p s).2
  | .callProgress d, s => (progress d s).2
  | .callGetConfig, s => (get_config [] (fun c => c.config) s).2
  | .callGetWorker, s => (get_ucp_worker s).2
  | .callReset, s => reset s

/-- State after a sequence of public API calls. -/
def run (calls : List ApiCall) (s : GlobalState) : GlobalState :=
  calls.foldl (fun s c => step c s) s

/-- Number of live contexts held by the module state. -/
def liveContexts (s : GlobalState) : Nat :=
  match s.ctx with
  | none => 0
  | some _ => 1

/-- The context with id `cid` is the live one. -/
def contextLive (s : GlobalState) (cid : Nat) : Prop :=
  ∃ c, s.ctx = some c ∧ c.id = cid

/-- A listener is valid while its owning context is the live one (spec:
a Listener "must not outlive its owning Context's Worker"). -/
def Listener.validIn (l : Listener) (s : GlobalState) : Prop :=
  contextLive s l.owner

/-! ### Helper lemmas -/

/-- Membership in the pruned options: exactly the entries of `options`
whose key the environment does not bind. -/
theorem mem_envRemove (options env : Config) (kv : String × String) :
    kv ∈ envRemove options env ↔ kv ∈ options ∧ lookupKey env kv.1 = none := by
  simp [envRemove, List.mem_filter, Option.isNone_iff_eq_none]

/-! ### Claims -/

/-- C1: `init` fails with AlreadyInitialized and leaves the context in place
whenever a context is live, and succeeds (transitioning to ACTIVE) whenever
none is; hence `init(); init()` fails on the second call and
`init(); reset(); init()` succeeds on both `init` calls. -/
theorem init_state_machine (o1 o2 o3 env : Config) (b : Bool) (s : GlobalState) :
    (∀ c, s.ctx = some c →
        (init o1 env b s).result = Except.error UcxError.AlreadyInitialized
      ∧ (init o1 env b s).state = s)
  ∧ (s.ctx = none →
        (init o1 env b s).result = Except.ok ()
      ∧ ((init o1 env b s).state.ctx).isSome = true
      ∧ (init o2 env b (init o1 env b s).state).result
          = Except.error UcxError.AlreadyInitialized
      ∧ (init o2 env b (init o1 env b s).state).state = (init o1 env b s).state
      ∧ (init o3 env b (reset (init o1 env b s).state)).result = Except.ok ()) := by
  constructor
  · intro c hc
    simp [init, hc]
  · intro h
    simp [init, reset, h]

/-- C1 witness: the state machine facts at the module's import state. -/
theorem init_state_machine_witness :
    (init [] [] false initialState).result = Except.ok ()
  ∧ (init [] [] false (init [] [] false initialState).state).result
      = Except.error UcxError.AlreadyInitialized
  ∧ (init [] [] false (reset (init [] [] false initialState).state)).result
      = Except.ok () := by
  have h := (init_state_machine [] [] [] [] false initialState).2 rfl
  exact ⟨h.1, h.2.2.1, h.2.2.2.2⟩

/-- C10: a failed `init` is atomic — when a context is live, `init` raises
AlreadyInitialized, the module state is exactly what it was before the call,
and the caller's options mapping is not modified (the liveness check
precedes the key-deletion loop and the construction). -/
theorem failed_init_atomic (options env : Config) (b : Bool) (s : GlobalState)
    (c : ApplicationContext) (h : s.ctx = some c) :
    (init options env b s).result = Except.error UcxError.AlreadyInitialized
  ∧ (init options env b s).state = s
  ∧ (init options env b s).options = options := by
  simp [init, h]

/-- C10 witness: atomicity of the failing second `init` at a concrete
state. -/
theorem failed_init_atomic_witness :
    (init [("UCX_TLS", "tcp")] [("UCX_TLS", "all")] true
        { ctx := some { id := 0, config := [] }, nextId := 1, nextOpId := 0,
          ops := [], listeners := [] }).options
      = [("UCX_TLS", "tcp")] := by
  exact (failed_init_atomic [("UCX_TLS", "tcp")] [("UCX_TLS", "all")] true
    { ctx := some { id := 0, config := [] }, nextId := 1, nextOpId := 0,
      ops := [], listeners := [] } { id := 0, config := [] } rfl).2.2

/-- C2 counterexample: `init` does mutate the caller's options mapping in
place.  With `env_takes_precedence = true` and the key `UCX_TLS` present in
both the options and the environment, the caller's mapping no longer holds
its `UCX_TLS` entry after the call: the loop `for k in os.environ.keys(): if
k in options: del options[k]` deletes from the caller's dict, not from a
copy. -/
theorem init_mutates_options_cex :
    (init [("UCX_TLS", "tcp")] [("UCX_TLS", "all")] true initialState).options
      ≠ [("UCX_TLS", "tcp")] := by
  decide

/-- C2 amended: the caller's options mapping is unchanged when
`env_takes_precedence` is false, and also when a context is already live (the
failing liveness check precedes the deletion loop); but when
`env_takes_precedence` is true and `init` proceeds, every entry of the
caller's mapping whose key is bound in the environment is deleted from the
caller's mapping in place — resolution does not operate on a copy. -/
theorem init_options_mutation (options env : Config) (b : Bool) (s : GlobalState) :
    (b = false → (init options env b s).options = options)
  ∧ (∀ c, s.ctx = some c → (init options env b s).options = options)
  ∧ (s.ctx = none → b = true →
        ∀ kv, kv ∈ (init options env b s).options
          ↔ kv ∈ options ∧ lookupKey env kv.1 = none) := by
  refine ⟨?_, ?_, ?_⟩
  · intro hb
    cases hc : s.ctx <;> simp [init, hc, hb]
  · intro c hc
    simp [init, hc]
  · intro hc hb kv
    simp only [init, hc, hb, if_pos]
    exact mem_envRemove options env kv

/-- C2 witness: the amended mutation facts at concrete inputs. -/
theorem init_options_mutation_witness :
    ((init [("UCX_TLS", "tcp")] [("UCX_TLS", "all")] false initialState).options
        = [("UCX_TLS", "tcp")])
  ∧ (("UCX_TLS", "tcp") ∈ (init [("UCX_TLS", "tcp")] [("UCX_TLS", "all")] true
        initialState).options
      ↔ ("UCX_TLS", "tcp") ∈ [("UCX_TLS", "tcp")]
        ∧ lookupKey [("UCX_TLS", "all")] "UCX_TLS" = none) := by
  have h := init_options_mutation [("UCX_TLS", "tcp")] [("UCX_TLS", "all")]
    true initialState
  exact ⟨(init_options_mutation [("UCX_TLS", "tcp")] [("UCX_TLS", "all")]
    false initialState).1 rfl, h.2.2 rfl rfl ("UCX_TLS", "tcp")⟩

/-- C3: the resolved options a successful `init` hands to the context
construction: with `env_takes_precedence = true` they are exactly the
explicit options minus every entry whose key the environment binds
(non-overlapping entries untouched); with `env_takes_precedence = false`
they are the explicit options as given, no key removed. -/
theorem init_resolved_options (options env : Config) (s : GlobalState)
    (h : s.ctx = none) :
    (∃ c, (init options env true s).state.ctx = some c
       ∧ (∀ kv, kv ∈ c.config ↔ kv ∈ options ∧ lookupKey env kv.1 = none))
  ∧ (∃ c, (init options env false s).state.ctx = some c ∧ c.config = options) := by
  constructor
  · refine ⟨{ id := s.nextId, config := envRemove options env }, ?_, ?_⟩
    · simp [init, h]
    · intro kv
      exact mem_envRemove options env kv
  · exact ⟨{ id := s.nextId, config := options }, by simp [init, h], rfl⟩

/-- C3 witness: the resolved options at concrete inputs. -/
theorem init_resolved_options_witness :
    (∃ c, (init [("UCX_TLS", "tcp"), ("UCX_RNDV_THRESH", "8k")]
              [("UCX_TLS", "all")] true initialState).state.ctx = some c
       ∧ (("UCX_RNDV_THRESH", "8k") ∈ c.config
            ↔ ("UCX_RNDV_THRESH", "8k")
                ∈ [("UCX_TLS", "tcp"), ("UCX_RNDV_THRESH", "8k")]
              ∧ lookupKey [("UCX_TLS", "all")] "UCX_RNDV_THRESH" = none)) := by
  obtain ⟨c, hc, hmem⟩ := (init_resolved_options
    [("UCX_TLS", "tcp"), ("UCX_RNDV_THRESH", "8k")] [("UCX_TLS", "all")]
    initialState rfl).1
  exact ⟨c, hc, hmem ("UCX_RNDV_THRESH", "8k")⟩

/-- C4: at most one live context per process — for every sequence of public
API calls starting at the module's import state, the module state holds zero
or one context, never two: the whole lifecycle runs through the single
module-level `_ctx` slot. -/
theorem at_most_one_live_context (calls : List ApiCall) :
    liveContexts (run calls initialState) ≤ 1 := by
  cases h : (run calls initialState).ctx <;> simp [liveContexts, h]

/-- C5: the accessor `_get_ctx` is idempotent and never fails — from
UNINITIALIZED it installs a context with default (empty) options and returns
it; from ACTIVE it returns the existing instance with the state unchanged;
two consecutive calls return the same instance. -/
theorem get_ctx_idempotent (s : GlobalState) :
    ((get_ctx s).2.ctx = some (get_ctx s).1)
  ∧ (s.ctx = none → (get_ctx s).1 = { id := s.nextId, config := [] })
  ∧ (∀ c, s.ctx = some c → get_ctx s = (c, s))
  ∧ (get_ctx (get_ctx s).2 = ((get_ctx s).1, (get_ctx s).2)) := by
  cases h : s.ctx <;> simp [get_ctx, h]

/-- C5 witness: the accessor's behaviour at the import state. -/
theorem get_ctx_idempotent_witness :
    ((get_ctx initialState).1 = { id := 0, config := [] })
  ∧ (get_ctx (get_ctx initialState).2
      = ((get_ctx initialState).1, (get_ctx initialState).2)) :=
  ⟨(get_ctx_idempotent initialState).2.1 rfl,
    (get_ctx_idempotent initialState).2.2.2⟩

/-- C6: `reset` never fails (it is a total state update) and always leaves
the module UNINITIALIZED; from UNINITIALIZED it is a no-op; after it, no
context is live, so every listener created so far — and hence every endpoint
or listener owned by the dropped context — is invalid. -/
theorem reset_spec (s : GlobalState) :
    ((reset s).ctx = none)
  ∧ (s.ctx = none → reset s = s)
  ∧ (∀ l, l ∈ s.listeners → ¬ Listener.validIn l (reset s))
  ∧ (∀ op, op ∈ s.ops → ¬ contextLive (reset s) op.owner) := by
  have hnone : (reset s).ctx = none := by
    cases h : s.ctx <;> simp [reset, h]
  refine ⟨hnone, ?_, ?_, ?_⟩
  · intro h
    cases s
    simp_all [reset]
  · intro l _ hv
    obtain ⟨c, hc, _⟩ := hv
    rw [hnone] at hc
    exact Option.noConfusion hc
  · intro op _ hv
    obtain ⟨c, hc, _⟩ := hv
    rw [hnone] at hc
    exact Option.noConfusion hc

/-- C6 witness: reset facts at a concrete active state with one listener. -/
theorem reset_spec_witness :
    ((reset { ctx := some { id := 0, config := [] }, nextId := 1, nextOpId := 0,
              ops := [], listeners := [{ owner := 0, port := 9000 }] }).ctx = none)
  ∧ (reset initialState = initialState)
  ∧ ¬ Listener.validIn { owner := 0, port := 9000 }
      (reset { ctx := some { id := 0, config := [] }, nextId := 1, nextOpId := 0,
               ops := [], listeners := [{ owner := 0, port := 9000 }] }) := by
  have h := reset_spec { ctx := some { id := 0, config := [] }, nextId := 1,
                         nextOpId := 0, ops := [],
                         listeners := [{ owner := 0, port := 9000 }] }
  exact ⟨h.1, (reset_spec initialState).2.1 rfl,
    h.2.2.1 { owner := 0, port := 9000 } (by simp)⟩

/-- C7: `get_config` from UNINITIALIZED returns the engine's static default
configuration and leaves the state untouched (no context is created); from
ACTIVE it returns the live worker's actual effective configuration, also
without changing the state. -/
theorem get_config_spec (d : Config) (f : ApplicationContext → Config)
    (s : GlobalState) :
    (s.ctx = none → get_config d f s = (d, s))
  ∧ (∀ c, s.ctx = some c → get_config d f s = (f c, s)) := by
  constructor
  · intro h
    simp [get_config, h]
  · intro c h
    simp [get_config, get_ctx, h]

/-- C7 witness: both branches of `get_config` at concrete states. -/
theorem get_config_spec_witness :
    (get_config [("UCX_TLS", "all")] (fun c => c.config) initialState
        = ([("UCX_TLS", "all")], initialState))
  ∧ (get_config [("UCX_TLS", "all")] (fun c => c.config)
        { ctx := some { id := 0, config := [("UCX_TLS", "tcp")] }, nextId := 1,
          nextOpId := 0, ops := [], listeners := [] }
      = ([("UCX_TLS", "tcp")],
         { ctx := some { id := 0, config := [("UCX_TLS", "tcp")] }, nextId := 1,
           nextOpId := 0, ops := [], listeners := [] })) :=
  ⟨(get_config_spec [("UCX_TLS", "all")] (fun c => c.config) initialState).1 rfl,
   (get_config_spec [("UCX_TLS", "all")] (fun c => c.config)
      { ctx := some { id := 0, config := [("UCX_TLS", "tcp")] }, nextId := 1,
        nextOpId := 0, ops := [], listeners := [] }).2
      { id := 0, config := [("UCX_TLS", "tcp")] } rfl⟩

/-- C8 counterexample: `progress`, `get_ucp_worker` and `create_endpoint`
invoked from UNINITIALIZED do not fail at all — each returns a value and
installs a fresh context as a side effect (all three reach the worker
through `_get_ctx`, which auto-creates; the code has no NotInitialized
error). -/
theorem ops_auto_create_cex :
    ((progress [] initialState).2.ctx = some { id := 0, config := [] })
  ∧ ((get_ucp_worker initialState).2.ctx = some { id := 0, config := [] })
  ∧ ((create_endpoint "127.0.0.1" 9000 initialState).2.ctx
      = some { id := 0, config := [] }) := by
  decide

/-- C8 amended: from UNINITIALIZED, `progress()`, `get_worker_handle()` and
`create_endpoint()` each construct a fresh default context via the
idempotent accessor and proceed against it, rather than failing with
NotInitialized. -/
theorem ops_auto_create (s : GlobalState) (h : s.ctx = none)
    (d : List (Nat × Bool)) (ip : String) (p : Nat) :
    ((progress d s).2.ctx = some { id := s.nextId, config := [] })
  ∧ ((get_ucp_worker s).2.ctx = some { id := s.nextId, config := [] })
  ∧ ((create_endpoint ip p s).2.ctx = some { id := s.nextId, config := [] }) := by
  refine ⟨?_, ?_, ?_⟩ <;> simp [progress, get_ucp_worker, create_endpoint, get_ctx, h]

/-- C8 witness: the amended auto-creation facts at the import state. -/
theorem ops_auto_create_witness :
    ((progress [(0, true)] initialState).2.ctx = some { id := 0, config := [] })
  ∧ ((create_endpoint "10.0.0.1" 7000 initialState).2.ctx
      = some { id := 0, config := [] }) := by
  have h := ops_auto_create initialState rfl [(0, true)] "10.0.0.1" 7000
  exact ⟨h.1, h.2.2⟩

/-- Operation id `oid` has been issued and every record of it is cancelled. -/
def cancelledAt (s : GlobalState) (oid : Nat) : Prop :=
  oid < s.nextOpId ∧ ∀ op ∈ s.ops, op.opId = oid → op.status = OpStatus.cancelled

/-- The accessor changes neither the operation table nor the operation-id
counter. -/
theorem get_ctx_frame (s : GlobalState) :
    (get_ctx s).2.ops = s.ops ∧ (get_ctx s).2.nextOpId = s.nextOpId := by
  cases h : s.ctx <;> simp [get_ctx, h]

/-- A progress step never touches a cancelled operation: the engine report
only moves operations out of `pending`. -/
theorem resolveOps_cancel_stable (cid : Nat) (d : List (Nat × Bool))
    (ops : List PendingOp) (oid : Nat)
    (h : ∀ op ∈ ops, op.opId = oid → op.status = OpStatus.cancelled) :
    ∀ op ∈ resolveOps cid d ops, op.opId = oid → op.status = OpStatus.cancelled := by
  intro op hm hoid
  rw [resolveOps, List.mem_map] at hm
  obtain ⟨op0, h0, heq⟩ := hm
  by_cases hc : op0.owner = cid ∧ op0.status = OpStatus.pending
  · rw [if_pos hc] at heq
    have hop0 : op0.opId = oid := by
      cases hl : lookupKey d op0.opId with
      | none => rw [hl] at heq; subst heq; exact hoid
      | some b =>
        cases b <;> rw [hl] at heq <;> subst heq <;> exact hoid
    have := h op0 h0 hop0
    rw [this] at hc
    exact absurd hc.2 (by simp)
  · rw [if_neg hc] at heq
    subst heq
    exact h op0 h0 hoid

/-- Context teardown never touches a cancelled operation: it only moves
operations out of `pending`. -/
theorem cancelOps_cancel_stable (cid : Nat) (ops : List PendingOp) (oid : Nat)
    (h : ∀ op ∈ ops, op.opId = oid → op.status = OpStatus.cancelled) :
    ∀ op ∈ cancelOps cid ops, op.opId = oid → op.status = OpStatus.cancelled := by
  intro op hm hoid
  rw [cancelOps, List.mem_map] at hm
  obtain ⟨op0, h0, heq⟩ := hm
  by_cases hc : op0.owner = cid ∧ op0.status = OpStatus.pending
  · rw [if_pos hc] at heq
    subst heq
    rfl
  · rw [if_neg hc] at heq
    subst heq
    exact h op0 h0 hoid

/-- Once every record of an issued operation id is cancelled, one further
public API call keeps it that way: no call resurrects or resolves a
cancelled Pending Operation. -/
theorem step_cancelledAt (call : ApiCall) (s : GlobalState) (oid : Nat)
    (h : cancelledAt s oid) : cancelledAt (step call s) oid := by
  obtain ⟨hlt, hall⟩ := h
  cases call with
  | callInit o e b =>
    cases hc : s.ctx with
    | some c => exact ⟨by simp [step, init, hc]; exact hlt, by simp [step, init, hc]; exact hall⟩
    | none => exact ⟨by simp [step, init, hc]; exact hlt, by simp [step, init, hc]; exact hall⟩
  | callGetOrCreate =>
    refine ⟨?_, ?_⟩
    · rw [show (step ApiCall.callGetOrCreate s).nextOpId = s.nextOpId from
        (get_ctx_frame s).2]
      exact hlt
    · rw [show (step ApiCall.callGetOrCreate s).ops = s.ops from (get_ctx_frame s).1]
      exact hall
  | callCreateListener p =>
    refine ⟨?_, ?_⟩
    · rw [show (step (ApiCall.callCreateListener p) s).nextOpId = s.nextOpId by
        simp [step, create_listener]; exact (get_ctx_frame s).2]
      exact hlt
    · rw [show (step (ApiCall.callCreateListener p) s).ops = s.ops by
        simp [step, create_listener]; exact (get_ctx_frame s).1]
      exact hall
  | callCreateEndpoint ip p =>
    refine ⟨?_, ?_⟩
    · have : (step (ApiCall.callCreateEndpoint ip p) s).nextOpId
          = (get_ctx s).2.nextOpId + 1 := by
        simp [step, create_endpoint]
      rw [this, (get_ctx_frame s).2]
      exact Nat.lt_succ_of_lt hlt
    · intro op hm hoid
      have hops : (step (ApiCall.callCreateEndpoint ip p) s).ops
          = (get_ctx s).2.ops ++
            [{ opId := (get_ctx s).2.nextOpId, owner := (get_ctx s).1.id,
               addr := ip, port := p, status := OpStatus.pending }] := by
        simp [step, create_endpoint]
      rw [hops, List.mem_append] at hm
      cases hm with
      | inl hin =>
        rw [(get_ctx_frame s).1] at hin
        exact hall op hin hoid
      | inr hnew =>
        rw [List.mem_singleton] at hnew
        subst hnew
        rw [(get_ctx_frame s).2] at hoid
        exact absurd hoid (by simp; omega)
  | callProgress d =>
    refine ⟨?_, ?_⟩
    · rw [show (step (ApiCall.callProgress d) s).nextOpId = s.nextOpId by
        simp [step, progress]; exact (get_ctx_frame s).2]
      exact hlt
    · have hops : (step (ApiCall.callProgress d) s).ops
          = resolveOps (get_ctx s).1.id d (get_ctx s).2.ops := by
        simp [step, progress]
      rw [hops]
      refine resolveOps_cancel_stable (get_ctx s).1.id d (get_ctx s).2.ops oid ?_
      rw [(get_ctx_frame s).1]
      exact hall
  | callGetConfig =>
    cases hc : s.ctx with
    | none => exact ⟨by simp [step, get_config, hc]; exact hlt,
        by simp [step, get_config, hc]; exact hall⟩
    | some c => exact ⟨by simp [step, get_config, get_ctx, hc]; exact hlt,
        by simp [step, get_config, get_ctx, hc]; exact hall⟩
  | callGetWorker =>
    refine ⟨?_, ?_⟩
    · rw [show (step ApiCall.callGetWorker s).nextOpId = s.nextOpId from
        (get_ctx_frame s).2]
      exact hlt
    · rw [show (step ApiCall.callGetWorker s).ops = s.ops from (get_ctx_frame s).1]
      exact hall
  | callReset =>
    cases hc : s.ctx with
    | none => exact ⟨by simp [step, reset, hc]; exact hlt,
        by simp [step, reset, hc]; exact hall⟩
    | some c =>
      refine ⟨by simp [step, reset, hc]; exact hlt, ?_⟩
      have hops : (step ApiCall.callReset s).ops = cancelOps c.id s.ops := by
        simp [step, reset, hc]
      rw [hops]
      exact cancelOps_cancel_stable c.id s.ops oid hall

/-- Once every record of an issued operation id is cancelled, it stays
cancelled under any sequence of public API calls. -/
theorem run_cancelledAt (calls : List ApiCall) (s : GlobalState) (oid : Nat)
    (h : cancelledAt s oid) : cancelledAt (run calls s) oid := by
  induction calls generalizing s with
  | nil => exact h
  | cons a l ih => exact ih (step a s) (step_cancelledAt a s oid h)

/-- C9: calling `reset` while outbound connects are pending cancels every
Pending Operation before the Worker is released: afterwards no operation is
pending, each previously pending operation is recorded cancelled, a
cancelled operation is never subsequently resolved under any continuation of
the run, and the next `get_or_create` yields a fresh context distinct from
the dropped one. -/
theorem reset_cancels_pending (s : GlobalState) (c : ApplicationContext)
    (h : s.ctx = some c)
    (howner : ∀ op ∈ s.ops, op.status = OpStatus.pending → op.owner = c.id)
    (hid : c.id < s.nextId) :
    (∀ op ∈ (reset s).ops, op.status ≠ OpStatus.pending)
  ∧ (∀ op ∈ s.ops, op.status = OpStatus.pending →
        { op with status := OpStatus.cancelled } ∈ (reset s).ops)
  ∧ (∀ oid, oid < s.nextOpId →
        (∀ op ∈ s.ops, op.opId = oid → op.status = OpStatus.pending) →
        ∀ calls, ∀ op ∈ (run calls (reset s)).ops,
          op.opId = oid → op.status = OpStatus.cancelled)
  ∧ ((get_ctx (reset s)).1.id ≠ c.id
      ∧ (get_ctx (reset s)).2.ctx = some (get_ctx (reset s)).1) := by
  have hops : (reset s).ops = cancelOps c.id s.ops := by
    simp [reset, h]
  refine ⟨?_, ?_, ?_, ?_⟩
  · intro op hm
    rw [hops, cancelOps, List.mem_map] at hm
    obtain ⟨op0, h0, heq⟩ := hm
    by_cases hc : op0.owner = c.id ∧ op0.status = OpStatus.pending
    · rw [if_pos hc] at heq
      subst heq
      simp
    · rw [if_neg hc] at heq
      subst heq
      intro hp
      exact hc ⟨howner op0 h0 hp, hp⟩
  · intro op hm hp
    rw [hops, cancelOps, List.mem_map]
    refine ⟨op, hm, ?_⟩
    rw [if_pos ⟨howner op hm hp, hp⟩]
  · intro oid hlt hpend calls
    have hbase : cancelledAt (reset s) oid := by
      refine ⟨?_, ?_⟩
      · rw [show (reset s).nextOpId = s.nextOpId by simp [reset, h]]
        exact hlt
      · intro op hm hoid
        rw [hops, cancelOps, List.mem_map] at hm
        obtain ⟨op0, h0, heq⟩ := hm
        by_cases hc : op0.owner = c.id ∧ op0.status = OpStatus.pending
        · rw [if_pos hc] at heq
          subst heq
          rfl
        · rw [if_neg hc] at heq
          subst heq
          exact absurd ⟨howner op0 h0 (hpend op0 h0 hoid), hpend op0 h0 hoid⟩ hc
    exact fun op hm hoid => (run_cancelledAt calls (reset s) oid hbase).2 op hm hoid
  · have hr : (reset s).ctx = none ∧ (reset s).nextId = s.nextId := by
      constructor <;> simp [reset, h]
    constructor
    · rw [show (get_ctx (reset s)).1 = { id := (reset s).nextId, config := [] } by
        simp [get_ctx, hr.1], hr.2]
      simp only [ne_eq]
      omega
    · rw [show get_ctx (reset s)
          = ({ id := (reset s).nextId, config := [] },
             { reset s with ctx := some { id := (reset s).nextId, config := [] },
                            nextId := (reset s).nextId + 1 }) by
        simp [get_ctx, hr.1]]

/-- A concrete active state with two pending outbound connects, for
instantiating the cancellation theorem. -/
def pendingState : GlobalState :=
  { ctx := some { id := 0, config := [] }
    nextId := 1
    nextOpId := 2
    ops := [{ opId := 0, owner := 0, addr := "10.0.0.1", port := 7000,
              status := OpStatus.pending },
            { opId := 1, owner := 0, addr := "10.0.0.2", port := 7001,
              status := OpStatus.pending }]
    listeners := [] }

/-- C9 witness: cancellation of the two pending connects of `pendingState`,
their id never resolving even under a later progress step that reports them
complete, and freshness of the re-created context. -/
theorem reset_cancels_pending_witness :
    (∀ op ∈ (reset pendingState).ops, op.status ≠ OpStatus.pending)
  ∧ (∀ op ∈ (run [ApiCall.callProgress [(0, true), (1, true)]]
        (reset pendingState)).ops, op.opId = 0 → op.status = OpStatus.cancelled)
  ∧ (get_ctx (reset pendingState)).1.id ≠ 0 := by
  have h := reset_cancels_pending pendingState { id := 0, config := [] } rfl
    (by decide) (by decide)
  exact ⟨h.1,
    fun op hm => h.2.2.1 0 (by decide) (by decide)
      [ApiCall.callProgress [(0, true), (1, true)]] op hm,
    h.2.2.2.1⟩

end Ucp
